import Mathlib

/-!
Verification of the forest-version kernel-methods notebook
(`11_Kernel_Methods.ipynb`): a distance-based quantum classifier built from
an angle encoder (`get_angle`), a state-preparation circuit builder
(`prepare_state`), an interference stage (`interfere_data_and_test_instances`),
and a postselection estimator (`postselect`), plus the notebook-level session
orchestration that starts and terminates the simulation backend servers.

The embedding is shallow: pyQuil programs become explicit instruction lists,
Python dict/string data becomes association lists over `List Char` keys,
float division becomes exact division on `ℚ`, and a Python call that can
raise becomes an `Except`-valued function.  Python's `None` return value is
`none`.  numpy's quiet NaN (as returned by `np.arccos` outside `[-1, 1]`,
with a RuntimeWarning, not an exception) is the `NpFloat.nan` value.
-/

/-- A single pyQuil program instruction, as appended by the notebook's
builder functions: the two user gate definitions (`cry_definition`,
`ccry_definition`), the standard gates used, classical memory declaration,
and measurement of a qubit into a readout bit. -/
inductive Instruction where
  | defGate (name : String)
  | H (q : ℕ)
  | CRY (angle : ℝ) (control target : ℕ)
  | X (q : ℕ)
  | CCNOT (control1 control2 target : ℕ)
  | CCRY (angle : ℝ) (control1 control2 target : ℕ)
  | CNOT (control target : ℕ)
  | declare (name : String) (memoryType : String) (memorySize : ℕ)
  | measure (q : ℕ) (roBit : ℕ)

/-- A pyQuil `Program` is the ordered list of instructions appended to it. -/
abbrev Program := List Instruction

/-- `prepare_state` from the notebook (cell 12).  The Python function takes a
list `angles`, names the four qubit roles, starts from an empty `Program`,
appends the two gate definitions and then the gate sequence, reading
`angles[0]` for the test vector and `angles[1]` for the second training
vector.  List indexing is Python indexing: out of range raises `IndexError`,
modelled by `none`. -/
def prepare_state (angles : List ℝ) : Option Program :=
  let ancilla_qubit := 0
  let index_qubit := 1
  let data_qubit := 2
  let class_qubit := 3
  do
  let angle0 ← angles.get? 0
  let angle1 ← angles.get? 1
  return [
    .defGate "CRY",
    .defGate "CCRY",
    -- Put the ancilla and the index qubits into uniform superposition
    .H ancilla_qubit,
    .H index_qubit,
    -- Prepare the test vector
    .CRY angle0 ancilla_qubit data_qubit,
    -- Flip the ancilla qubit
    .X ancilla_qubit,
    -- Prepare the first training vector with a Toffoli
    .CCNOT ancilla_qubit index_qubit data_qubit,
    -- Flip the index qubit
    .X index_qubit,
    -- Prepare the second training vector
    .CCRY angle1 ancilla_qubit index_qubit data_qubit,
    -- Flip the class label for training vector #2
    .CNOT index_qubit class_qubit]

/-- `interfere_data_and_test_instances` from the notebook (cell 21): declares
a 4-bit readout region `ro` on the circuit, appends `H(0)` (the ancilla), and
appends `MEASURE(q, ro[q])` for `q` in `range(4)`.  Its `angles` parameter is
never used. -/
def interfere_data_and_test_instances (circuit : Program) (angles : List ℝ) :
    Program :=
  circuit ++
    ([Instruction.declare "ro" "BIT" 4, Instruction.H 0] ++
      (List.range 4).map (fun q => Instruction.measure q q))

/-- The orchestration cells (27 and 30) turn each per-shot bit vector into a
4-character outcome key with `''.join(map(str, l))`: bit `q` (written by
`MEASURE(q, ro[q])`) lands at string position `q`. -/
def outcomeKey (bits : List ℕ) : List Char :=
  bits.map Nat.digitChar

/-- C1: `prepare_state` builds, after the two gate definitions, exactly
H(ancilla); H(index); CRY(θ_test) on (ancilla → data); X(ancilla);
CCNOT(ancilla, index → data); X(index); CCRY(θ_train) on
(ancilla, index → data); CNOT(index → class), in this order and nothing
else.  The embedding is a pure function into an instruction list, so the
builder never executes or samples the circuit. -/
theorem prepare_state_gate_sequence (theta_test theta_train : ℝ) :
    prepare_state [theta_test, theta_train] = some [
      .defGate "CRY",
      .defGate "CCRY",
      .H 0,
      .H 1,
      .CRY theta_test 0 2,
      .X 0,
      .CCNOT 0 1 2,
      .X 1,
      .CCRY theta_train 0 1 2,
      .CNOT 1 3] := rfl

/-- C3: `interfere_data_and_test_instances` extends the given circuit with
exactly one readout declaration, one Hadamard on the ancilla qubit (qubit 0)
and nothing else gate-like, then measurements writing qubit `q` to readout
bit `q` for all four qubits, and returns the extended circuit; consequently
in every outcome key assembled by the orchestration the ancilla is character
0 and the class qubit is the last character — the positions `postselect`
reads via `state[0]` and `state[-1]`. -/
theorem interfere_appends_H_and_measurements (circuit : Program)
    (angles : List ℝ) (b0 b1 b2 b3 : ℕ) :
    interfere_data_and_test_instances circuit angles =
      circuit ++ [Instruction.declare "ro" "BIT" 4, Instruction.H 0,
        Instruction.measure 0 0, Instruction.measure 1 1,
        Instruction.measure 2 2, Instruction.measure 3 3] ∧
    (outcomeKey [b0, b1, b2, b3]).head? = some (Nat.digitChar b0) ∧
    (outcomeKey [b0, b1, b2, b3]).getLast? = some (Nat.digitChar b3) :=
  ⟨rfl, rfl, rfl⟩

/-- C10: the extended circuit returned by `interfere_data_and_test_instances`
does not depend on the `angles` argument at all: any two angle lists give
identical results on the same input circuit. -/
theorem interfere_independent_of_angles (circuit : Program)
    (a1 a2 : List ℝ) :
    interfere_data_and_test_instances circuit a1 =
      interfere_data_and_test_instances circuit a2 := rfl

/-- The two sites in `postselect` where Python raises `ZeroDivisionError`:
the acceptance-rate division `postselected_samples/total_samples` inside the
first print (raised when the input mapping is empty / all counts are zero),
and the class-probability divisions by `postselected_samples` (raised when no
outcome with ancilla bit 0 was observed). -/
inductive PyErr where
  | zeroDivisionAcceptance
  | zeroDivisionClass
  deriving DecidableEq, Repr

/-- What a call to `postselect` produces: the sequence of numbers it prints
(acceptance rate, probability of class 0, probability of class 1) and its
Python return value.  The source function ends without a `return` statement,
so it returns `None`; the field's type is wide enough to also express a
hypothetical `(rate, prob_class0, prob_class1)` return value. -/
structure PostselectOutput where
  printed : List ℚ
  returned : Option (ℚ × ℚ × ℚ)
  deriving DecidableEq, Repr

deriving instance DecidableEq for Except

/-- `total_samples = sum(result_counts.values())` (cell 25).  Outcome keys
(Python 4-character strings) are modelled as `List Char`. -/
def total_samples (result_counts : List (List Char × ℕ)) : ℕ :=
  (result_counts.map Prod.snd).sum

/-- The `post_select` lambda of cell 25: keep the entries whose outcome
string has `state[0] == '0'` (ancilla measured 0). -/
def post_select (counts : List (List Char × ℕ)) : List (List Char × ℕ) :=
  counts.filter (fun p => decide (p.1.head? = some '0'))

/-- `postselected_samples = sum(postselection.values())` (cell 25). -/
def postselected_samples (result_counts : List (List Char × ℕ)) : ℕ :=
  ((post_select result_counts).map Prod.snd).sum

/-- The `retrieve_class` lambda of cell 25: the occurrence counts of the
postselected entries whose outcome string has `state[-1] == str(binary_class)`
(class qubit measured to `binary_class`). -/
def retrieve_class (postselection : List (List Char × ℕ))
    (binary_class : ℕ) : List ℕ :=
  (postselection.filter
    (fun p => decide (p.1.getLast? = some (Nat.digitChar binary_class)))).map
    Prod.snd

/-- `postselect` from the notebook (cell 25).  It computes the totals, then
prints the acceptance rate `postselected_samples/total_samples` (this
division raises `ZeroDivisionError` when `total_samples = 0`), then computes
and prints `prob_class0` and `prob_class1`, each divided by
`postselected_samples` (raising `ZeroDivisionError` when that is 0).  It has
no `return` statement: the caller receives `None`.  Python float division is
modelled exactly on `ℚ`. -/
def postselect (result_counts : List (List Char × ℕ)) :
    Except PyErr PostselectOutput :=
  if total_samples result_counts = 0 then .error .zeroDivisionAcceptance
  else if postselected_samples result_counts = 0 then .error .zeroDivisionClass
  else .ok {
    printed := [
      (postselected_samples result_counts : ℚ) /
        (total_samples result_counts : ℚ),
      ((retrieve_class (post_select result_counts) 0).sum : ℚ) /
        (postselected_samples result_counts : ℚ),
      ((retrieve_class (post_select result_counts) 1).sum : ℚ) /
        (postselected_samples result_counts : ℚ)],
    returned := none }

/-- A 4-bit binary outcome string. -/
def isBinary4 (s : List Char) : Prop :=
  s.length = 4 ∧ ∀ c ∈ s, c = '0' ∨ c = '1'

instance (s : List Char) : Decidable (isBinary4 s) := by
  unfold isBinary4; infer_instance

lemma digitChar_zero : Nat.digitChar 0 = '0' := rfl

lemma digitChar_one : Nat.digitChar 1 = '1' := rfl

lemma postselected_le_total (counts : List (List Char × ℕ)) :
    postselected_samples counts ≤ total_samples counts :=
  List.Sublist.sum_le_sum ((List.filter_sublist counts).map Prod.snd)
    (fun a _ => Nat.zero_le a)

lemma postselected_pos {counts : List (List Char × ℕ)}
    {p : List Char × ℕ} (hmem : p ∈ counts) (h0 : p.1.head? = some '0')
    (hpos : 0 < p.2) : 0 < postselected_samples counts := by
  have hmemf : p ∈ post_select counts :=
    List.mem_filter.2 ⟨hmem, by simp [h0]⟩
  have hmems : p.2 ∈ (post_select counts).map Prod.snd :=
    List.mem_map_of_mem Prod.snd hmemf
  exact lt_of_lt_of_le hpos (List.le_sum_of_mem hmems)

lemma isBinary4_getLast {s : List Char} (h : isBinary4 s) :
    s.getLast? = some '0' ∨ s.getLast? = some '1' := by
  obtain ⟨hlen, hbits⟩ := h
  have hne : s ≠ [] := by
    intro e; rw [e] at hlen; exact absurd hlen (by decide)
  have hmem := List.getLast_mem hne
  rcases hbits _ hmem with h0 | h1
  · left; rw [List.getLast?_eq_getLast s hne, h0]
  · right; rw [List.getLast?_eq_getLast s hne, h1]

lemma sum_filter_last_partition (l : List (List Char × ℕ))
    (hl : ∀ p ∈ l, p.1.getLast? = some '0' ∨ p.1.getLast? = some '1') :
    (retrieve_class l 0).sum + (retrieve_class l 1).sum =
      (l.map Prod.snd).sum := by
  unfold retrieve_class
  induction l with
  | nil => rfl
  | cons p t ih =>
    have hp := hl p (List.mem_cons_self p t)
    have ht := fun q hq => hl q (List.mem_cons_of_mem p hq)
    have ih' := ih ht
    rcases hp with h | h
    · have h0 : decide (p.1.getLast? = some (Nat.digitChar 0)) = true := by
        simp [digitChar_zero, h]
      have h1 : decide (p.1.getLast? = some (Nat.digitChar 1)) = false := by
        simp [digitChar_one, h]
      simp [List.filter_cons, h0, h1]
      omega
    · have h0 : decide (p.1.getLast? = some (Nat.digitChar 0)) = false := by
        simp [digitChar_zero, h]
      have h1 : decide (p.1.getLast? = some (Nat.digitChar 1)) = true := by
        simp [digitChar_one, h]
      simp [List.filter_cons, h0, h1]
      omega

lemma postselect_ok (counts : List (List Char × ℕ))
    (hpos : 0 < postselected_samples counts) :
    postselect counts = .ok {
      printed := [
        (postselected_samples counts : ℚ) / (total_samples counts : ℚ),
        ((retrieve_class (post_select counts) 0).sum : ℚ) /
          (postselected_samples counts : ℚ),
        ((retrieve_class (post_select counts) 1).sum : ℚ) /
          (postselected_samples counts : ℚ)],
      returned := none } := by
  have hle := postselected_le_total counts
  have htot : ¬ total_samples counts = 0 := by omega
  have hps : ¬ postselected_samples counts = 0 := by omega
  unfold postselect
  rw [if_neg htot, if_neg hps]

/-- C2: for any outcome mapping of 4-bit binary strings to counts with at
least one positive-count outcome whose ancilla bit is 0, `postselect`
succeeds and the two class probabilities it computes sum to 1 exactly, and
the postselected total is at most the total count. -/
theorem postselect_class_probabilities_sum_to_one
    (counts : List (List Char × ℕ))
    (hkeys : ∀ p ∈ counts, isBinary4 p.1)
    (hpos : ∃ p ∈ counts, p.1.head? = some '0' ∧ 0 < p.2) :
    ∃ rate prob_class0 prob_class1 : ℚ,
      postselect counts =
        .ok ⟨[rate, prob_class0, prob_class1], none⟩ ∧
      prob_class0 + prob_class1 = 1 ∧
      postselected_samples counts ≤ total_samples counts := by
  obtain ⟨p, hmem, h0, hc⟩ := hpos
  have hps : 0 < postselected_samples counts := postselected_pos hmem h0 hc
  refine ⟨_, _, _, postselect_ok counts hps, ?_,
    postselected_le_total counts⟩
  have hlast : ∀ q ∈ post_select counts,
      q.1.getLast? = some '0' ∨ q.1.getLast? = some '1' := by
    intro q hq
    exact isBinary4_getLast (hkeys q (List.mem_of_mem_filter hq))
  have hsum : (retrieve_class (post_select counts) 0).sum +
      (retrieve_class (post_select counts) 1).sum =
      postselected_samples counts :=
    sum_filter_last_partition (post_select counts) hlast
  have hne : (postselected_samples counts : ℚ) ≠ 0 := by
    exact_mod_cast Nat.pos_iff_ne_zero.1 hps
  rw [div_add_div_same,
    show ((retrieve_class (post_select counts) 0).sum : ℚ) +
      ((retrieve_class (post_select counts) 1).sum : ℚ) =
      (postselected_samples counts : ℚ) by exact_mod_cast hsum]
  exact div_self hne

theorem postselect_class_probabilities_sum_to_one_witness :
    (∀ p ∈ ([(['0','0','0','0'], 3), (['0','0','0','1'], 1),
        (['1','0','1','0'], 4)] : List (List Char × ℕ)), isBinary4 p.1) ∧
    (∃ p ∈ ([(['0','0','0','0'], 3), (['0','0','0','1'], 1),
        (['1','0','1','0'], 4)] : List (List Char × ℕ)),
      p.1.head? = some '0' ∧ 0 < p.2) ∧
    ∃ rate prob_class0 prob_class1 : ℚ,
      postselect [(['0','0','0','0'], 3), (['0','0','0','1'], 1),
          (['1','0','1','0'], 4)] =
        .ok ⟨[rate, prob_class0, prob_class1], none⟩ ∧
      prob_class0 + prob_class1 = 1 ∧
      postselected_samples [(['0','0','0','0'], 3), (['0','0','0','1'], 1),
          (['1','0','1','0'], 4)] ≤
        total_samples [(['0','0','0','0'], 3), (['0','0','0','1'], 1),
          (['1','0','1','0'], 4)] :=
  ⟨by decide, by decide,
    postselect_class_probabilities_sum_to_one _ (by decide) (by decide)⟩

/-- C5: when all counts sum to zero (in particular for the empty mapping
produced by a run with zero shots), `postselect` fails — the acceptance-rate
division by `total_samples` raises `ZeroDivisionError` — instead of
returning degenerate probabilities. -/
theorem postselect_zero_total_fails (counts : List (List Char × ℕ))
    (h : total_samples counts = 0) :
    postselect counts = .error PyErr.zeroDivisionAcceptance := by
  unfold postselect
  rw [if_pos h]

theorem postselect_zero_total_fails_witness :
    total_samples [] = 0 ∧
    postselect [] = Except.error PyErr.zeroDivisionAcceptance :=
  ⟨rfl, postselect_zero_total_fails [] rfl⟩

/-- C6: with a positive total but no postselected counts (the ancilla was
never observed in state 0), `postselect` fails at the class-probability
division by `postselected_samples` — an explicit `ZeroDivisionError` — and
never returns NaN or zero probabilities. -/
theorem postselect_zero_postselected_fails (counts : List (List Char × ℕ))
    (htot : 0 < total_samples counts)
    (hps : postselected_samples counts = 0) :
    postselect counts = .error PyErr.zeroDivisionClass := by
  unfold postselect
  rw [if_neg (by omega), if_pos hps]

theorem postselect_zero_postselected_fails_witness :
    0 < total_samples [(['1','0','0','0'], 5)] ∧
    postselected_samples [(['1','0','0','0'], 5)] = 0 ∧
    postselect [(['1','0','0','0'], 5)] =
      Except.error PyErr.zeroDivisionClass :=
  ⟨by decide, by decide,
    postselect_zero_postselected_fails _ (by decide) (by decide)⟩

/-- C8 counterexample: on the non-degenerate mapping `{"0000": 1}` the
source `postselect` reaches the end of its body with no `return` statement,
so the caller receives `None` — not the computed statistics
`(rate, prob_class0, prob_class1) = (1, 1, 0)`, which are only printed. -/
theorem postselect_returns_none_counterexample :
    postselect [(['0','0','0','0'], 1)] =
      Except.ok ({ printed := [1, 1, 0], returned := none } :
        PostselectOutput) ∧
    (Except.ok ({ printed := [1, 1, 0], returned := none } :
        PostselectOutput) : Except PyErr PostselectOutput) ≠
      Except.ok { printed := [1, 1, 0], returned := some (1, 1, 0) } := by
  constructor
  · have h1 : postselected_samples [(['0','0','0','0'], 1)] = 1 := by decide
    have h2 : total_samples [(['0','0','0','0'], 1)] = 1 := by decide
    have h3 : (retrieve_class (post_select [(['0','0','0','0'], 1)]) 0).sum
        = 1 := by decide
    have h4 : (retrieve_class (post_select [(['0','0','0','0'], 1)]) 1).sum
        = 0 := by decide
    rw [postselect_ok _ (by rw [h1]; exact Nat.one_pos), h1, h2, h3, h4]
    norm_num
  · simp

/-- C8 amended: for every non-degenerate outcome mapping `postselect`
computes the acceptance rate `postselected_samples/total_samples` and the
class probabilities (postselected counts with class bit `k`, divided by
`postselected_samples`), but only prints them, in that order; its return
value to the caller is `None`. -/
theorem postselect_prints_stats_and_returns_none
    (counts : List (List Char × ℕ))
    (hpos : ∃ p ∈ counts, p.1.head? = some '0' ∧ 0 < p.2) :
    postselect counts = .ok {
      printed := [
        (postselected_samples counts : ℚ) / (total_samples counts : ℚ),
        ((retrieve_class (post_select counts) 0).sum : ℚ) /
          (postselected_samples counts : ℚ),
        ((retrieve_class (post_select counts) 1).sum : ℚ) /
          (postselected_samples counts : ℚ)],
      returned := none } := by
  obtain ⟨p, hmem, h0, hc⟩ := hpos
  exact postselect_ok counts (postselected_pos hmem h0 hc)

theorem postselect_prints_stats_and_returns_none_witness :
    (∃ p ∈ ([(['0','1','1','1'], 2), (['1','1','1','1'], 2)] :
        List (List Char × ℕ)), p.1.head? = some '0' ∧ 0 < p.2) ∧
    postselect [(['0','1','1','1'], 2), (['1','1','1','1'], 2)] = .ok {
      printed := [
        (postselected_samples [(['0','1','1','1'], 2),
            (['1','1','1','1'], 2)] : ℚ) /
          (total_samples [(['0','1','1','1'], 2),
            (['1','1','1','1'], 2)] : ℚ),
        ((retrieve_class (post_select [(['0','1','1','1'], 2),
            (['1','1','1','1'], 2)]) 0).sum : ℚ) /
          (postselected_samples [(['0','1','1','1'], 2),
            (['1','1','1','1'], 2)] : ℚ),
        ((retrieve_class (post_select [(['0','1','1','1'], 2),
            (['1','1','1','1'], 2)]) 1).sum : ℚ) /
          (postselected_samples [(['0','1','1','1'], 2),
            (['1','1','1','1'], 2)] : ℚ)],
      returned := none } :=
  ⟨by decide, postselect_prints_stats_and_returns_none _ (by decide)⟩

/-- A numpy floating-point result: either an ordinary real value or the
quiet NaN that numpy returns for invalid operations. -/
inductive NpFloat where
  | val (x : ℝ)
  | nan

/-- Multiplication by a scalar (the `2 * _` in `get_angle`); NaN
propagates. -/
def NpFloat.scale (c : ℝ) : NpFloat → NpFloat
  | .val x => .val (c * x)
  | .nan => .nan

/-- `np.arccos` on a scalar: the real arccosine on `[-1, 1]`.  Outside that
domain numpy does not raise — it emits `RuntimeWarning: invalid value
encountered in arccos` and returns NaN. -/
noncomputable def np_arccos (a : ℝ) : NpFloat :=
  if -1 ≤ a ∧ a ≤ 1 then .val (Real.arccos a) else .nan

/-- The domain error named by the spec for the angle encoder.  `get_angle`
is given the result type `Except DomainError NpFloat` so that "fails with a
domain error" is statable; the source function as written never raises, so
every result it produces is `.ok`. -/
inductive DomainError where
  | outOfRange

/-- `get_angle` from the notebook (cell 8):
`return 2*np.arccos(amplitude_0)`. -/
noncomputable def get_angle (amplitude_0 : ℝ) : Except DomainError NpFloat :=
  .ok ((np_arccos amplitude_0).scale 2)

/-- C4: for every `a` in `[-1, 1]` the angle encoder returns exactly
`2·arccos(a)`; in particular `get_angle 1 = 0` (since `arccos 1 = 0`). -/
theorem get_angle_eq_two_arccos (a : ℝ) (h1 : -1 ≤ a) (h2 : a ≤ 1) :
    get_angle a = .ok (.val (2 * Real.arccos a)) ∧
    get_angle 1 = .ok (.val 0) := by
  constructor
  · unfold get_angle np_arccos
    rw [if_pos ⟨h1, h2⟩]
    rfl
  · unfold get_angle np_arccos
    rw [if_pos ⟨by norm_num, le_refl (1 : ℝ)⟩]
    simp [NpFloat.scale, Real.arccos_one]

theorem get_angle_eq_two_arccos_witness :
    ((-1 : ℝ) ≤ 1 ∧ (1 : ℝ) ≤ 1) ∧
    (get_angle 1 = .ok (.val (2 * Real.arccos 1)) ∧
      get_angle 1 = .ok (.val 0)) :=
  ⟨⟨by norm_num, le_refl (1 : ℝ)⟩,
    get_angle_eq_two_arccos 1 (by norm_num) (le_refl (1 : ℝ))⟩

/-- C7 counterexample: at input 2 (outside `[-1, 1]`) `get_angle` does not
fail with a domain error: `np.arccos` only warns, and the call returns
normally with NaN. -/
theorem get_angle_out_of_range_counterexample :
    get_angle 2 = Except.ok NpFloat.nan ∧
    get_angle 2 ≠ Except.error DomainError.outOfRange := by
  have h : get_angle 2 = Except.ok NpFloat.nan := by
    unfold get_angle np_arccos
    rw [if_neg (by norm_num)]
    rfl
  exact ⟨h, by rw [h]; exact fun c => Except.noConfusion c⟩

/-- C7 amended: for every input outside `[-1, 1]` the angle encoder does not
raise a domain error; `np.arccos` emits a RuntimeWarning and yields NaN, so
`get_angle` returns NaN. -/
theorem get_angle_out_of_range_returns_nan (a : ℝ)
    (h : a < -1 ∨ 1 < a) :
    get_angle a = Except.ok NpFloat.nan := by
  have hn : ¬(-1 ≤ a ∧ a ≤ 1) := by
    rcases h with h | h
    · exact fun c => absurd c.1 (not_le.2 h)
    · exact fun c => absurd c.2 (not_le.2 h)
  unfold get_angle np_arccos
  rw [if_neg hn]
  rfl

theorem get_angle_out_of_range_returns_nan_witness :
    ((2 : ℝ) < -1 ∨ (1 : ℝ) < 2) ∧ get_angle 2 = Except.ok NpFloat.nan :=
  ⟨Or.inr (by norm_num),
    get_angle_out_of_range_returns_nan 2 (Or.inr (by norm_num))⟩

/-- The notebook-level steps that make up a session with the backend, in
source order: cell 1 starts the qvm and quilc server processes
(`init_qvm_and_quilc`); cells 27 and 30 each build, compile, run (1024
shots) and postselect one circuit; cell 31 calls `qvm_server.terminate()`
and `quilc_server.terminate()`.  The notebook contains no `try`/`finally`,
no `with` block and no `atexit` hook: statements run in order and an
uncaught exception aborts the session. -/
inductive Step where
  | startServers
  | prepareCircuit0
  | compileCircuit0
  | runCircuit0
  | postselectCircuit0
  | prepareCircuit1
  | compileCircuit1
  | runCircuit1
  | postselectCircuit1
  | terminateServers
  deriving DecidableEq, Repr

/-- The session's step sequence as written in the source. -/
def sessionSteps : List Step :=
  [.startServers, .prepareCircuit0, .compileCircuit0, .runCircuit0,
   .postselectCircuit0, .prepareCircuit1, .compileCircuit1, .runCircuit1,
   .postselectCircuit1, .terminateServers]

/-- The steps that complete in one execution of the session.  With no
failure (`failAt = none`) every step runs; if the step at position `i`
raises (`failAt = some i`, e.g. `qc.run` raising an ExecutionError at
position 3), the steps before it complete and nothing after it is reached,
since no exception handler or scope-exit construct exists in the
notebook. -/
def runSession (failAt : Option ℕ) : List Step :=
  match failAt with
  | none => sessionSteps
  | some i => sessionSteps.take i

/-- C9 counterexample: in the execution where sampling of the first circuit
(`qc.run`, position 3) fails, the servers were started but
`qvm_server.terminate()` is never executed — termination is not guaranteed
on failure paths, there being no scope-exit mechanism. -/
theorem terminate_not_reached_on_failure :
    Step.startServers ∈ runSession (some 3) ∧
    Step.terminateServers ∉ runSession (some 3) := by decide

/-- C9 amended: the backend server processes are terminated only on the
success path.  The failure-free execution ends with the terminate cell, but
an execution that fails at any position up to and including the terminate
cell itself (position 9) never runs `qvm_server.terminate()`: termination is
a plain trailing call, not a scope-exit guarantee. -/
theorem terminate_only_on_success (i : ℕ) (h : i ≤ 9) :
    Step.terminateServers ∉ runSession (some i) ∧
    (runSession none).getLast? = some Step.terminateServers := by
  constructor
  · interval_cases i <;> decide
  · rfl

theorem terminate_only_on_success_witness :
    7 ≤ 9 ∧
    (Step.terminateServers ∉ runSession (some 7) ∧
      (runSession none).getLast? = some Step.terminateServers) :=
  ⟨by decide, terminate_only_on_success 7 (by decide)⟩
